import Mathlib

/-!
Shallow embedding of the betting-markets aggregation and normalization engine.

Numbers (JS `number`) are modelled as `ℚ`; `undefined`-able values as `Option`;
JS truthiness of numbers (`0` is falsy) and strings (`""` is falsy) is modelled
explicitly by the `truthyNum` / `truthyStr` / `jsOrNum` / `jsOrStr` helpers.
`Math.round` is half-up rounding, `⌊x + 1/2⌋`.

Sources embedded:
- `src/scripts/utils.ts` (odds and currency conversion, sorting, filtering);
- `src/scripts/betfair-client.ts` (`normalizeMarket` and its per-runner pipeline);
- the Polymarket client (`normalizeMarketWithEvent`);
- the aggregator (`BettingMarketsAggregator.searchAll`).

`JSON.parse` / `parseFloat` plumbing of the Polymarket client and the network
layer of the clients are environment decoding: their results are taken as
inputs (`PolyOutcomeData`, `SearchResult`), and everything downstream of them
is translated statement by statement from the source.
-/

/-- JS `Math.round`: half-up rounding. -/
def jsRound (x : ℚ) : ℤ := ⌊x + 1/2⌋

/-- `Math.round(x * 100) / 100`: round to 2 decimal places. -/
def round2 (x : ℚ) : ℚ := (jsRound (x * 100) : ℚ) / 100

/-- JS `v || fallback` for numbers (`0` is falsy). -/
def jsOrNum (v : ℚ) (fallback : ℚ) : ℚ := if v = 0 then fallback else v

/-- JS `v || fallback` for possibly-`undefined` numbers. -/
def jsOptOrNum (v : Option ℚ) (fallback : ℚ) : ℚ :=
  match v with
  | some x => jsOrNum x fallback
  | none => fallback

/-- JS truthiness of a possibly-`undefined` number. -/
def truthyNum : Option ℚ → Bool
  | none => false
  | some v => decide (v ≠ 0)

/-- JS truthiness of a possibly-`undefined` string. -/
def truthyStr : Option String → Bool
  | none => false
  | some s => decide (s ≠ "")

/-- JS `a || b` for strings (`""` is falsy). -/
def jsOrStr (a b : String) : String := if a = "" then b else a

/-- `utils.ts` `polymarketOddsToPercent`: 0-1 price to percentage. -/
def polymarketOddsToPercent (price : ℚ) : ℚ := round2 (price * 100)

/-- `utils.ts` `betfairOddsToPercent`: decimal odds to implied probability. -/
def betfairOddsToPercent (decimalOdds : ℚ) : ℚ :=
  if decimalOdds ≤ 1 then 100 else round2 (1 / decimalOdds * 100)

/-- `utils.ts` `gbpToUsd`. -/
def gbpToUsd (gbp : ℚ) (rate : ℚ) : ℚ := round2 (gbp * rate)

/-- `utils.ts` `usdcToUsd` (identity: USDC is USD-pegged). -/
def usdcToUsd (usdc : ℚ) : ℚ := usdc

/-- `types.ts` `Platform`. -/
inductive Platform
  | polymarket
  | betfair
deriving DecidableEq, Repr

/-- The platform tag as the string used in warnings and sorting. -/
def platformName : Platform → String
  | .polymarket => "polymarket"
  | .betfair => "betfair"

/-- `types.ts` `Outcome`. Market status strings are kept as strings. -/
structure Outcome where
  name : String
  odds : ℚ
  backOdds : Option ℚ := none
  layOdds : Option ℚ := none
  spread : Option ℚ := none
  backSize : Option ℚ := none
  laySize : Option ℚ := none
  thinLiquidity : Option Bool := none
  backOnly : Option Bool := none
deriving DecidableEq, Repr

/-- `types.ts` `UnifiedMarket` (`status` is one of the strings
"open" / "closed" / "settled" / "unknown"). -/
structure UnifiedMarket where
  platform : Platform
  id : String
  eventId : Option String := none
  url : String
  question : String
  outcomes : Option (List Outcome) := none
  odds : ℚ
  volume : ℚ
  liquidity : Option ℚ := none
  status : String
  endDate : Option String := none
  lastUpdated : String
deriving DecidableEq, Repr

/-- The `sortBy` key of `types.ts` `SearchOptions`. -/
inductive SortKey
  | volume
  | odds
  | platform
deriving DecidableEq, Repr

/-- `types.ts` `SearchOptions` (the fields the core engine reads). -/
structure SearchOptions where
  platform : Option Platform := none
  minVolume : Option ℚ := none
  maxResults : Option Nat := none
  sortBy : Option SortKey := none
deriving DecidableEq, Repr

/-- Comparator `(a, b) => b.volume - a.volume` as a non-strict relation:
`a` may stay before `b` exactly when the comparator is `≤ 0`. -/
def volumeDesc (a b : UnifiedMarket) : Prop := b.volume ≤ a.volume

instance : DecidableRel volumeDesc :=
  fun a b => inferInstanceAs (Decidable (b.volume ≤ a.volume))

/-- Comparator `(a, b) => b.odds - a.odds` as a non-strict relation. -/
def marketOddsDesc (a b : UnifiedMarket) : Prop := b.odds ≤ a.odds

instance : DecidableRel marketOddsDesc :=
  fun a b => inferInstanceAs (Decidable (b.odds ≤ a.odds))

/-- Comparator `a.platform.localeCompare(b.platform)` as a non-strict relation
(lexicographic string order on the two platform names). -/
def platformAsc (a b : UnifiedMarket) : Prop :=
  platformName a.platform ≤ platformName b.platform

instance : DecidableRel platformAsc :=
  fun a b => inferInstanceAs (Decidable (platformName a.platform ≤ platformName b.platform))

instance : IsTotal UnifiedMarket volumeDesc :=
  ⟨fun a b => le_total b.volume a.volume⟩

instance : IsTrans UnifiedMarket volumeDesc :=
  ⟨fun _ _ _ h1 h2 => le_trans h2 h1⟩

instance : IsTotal UnifiedMarket marketOddsDesc :=
  ⟨fun a b => le_total b.odds a.odds⟩

instance : IsTrans UnifiedMarket marketOddsDesc :=
  ⟨fun _ _ _ h1 h2 => le_trans h2 h1⟩

instance : IsTotal UnifiedMarket platformAsc :=
  ⟨fun a b => le_total (platformName a.platform) (platformName b.platform)⟩

instance : IsTrans UnifiedMarket platformAsc :=
  ⟨fun _ _ _ h1 h2 => le_trans h1 h2⟩

/-- `utils.ts` `sortMarkets`. JS `Array.prototype.sort` is a stable sort, so it
is embedded as insertion sort (stable) on the comparator's non-strict order. -/
def sortMarkets (markets : List UnifiedMarket) (sortBy : SortKey) : List UnifiedMarket :=
  match sortBy with
  | .volume => markets.insertionSort volumeDesc
  | .odds => markets.insertionSort marketOddsDesc
  | .platform => markets.insertionSort platformAsc

/-- `utils.ts` `filterByMinVolume`: keep markets with `volume >= minVolume`. -/
def filterByMinVolume (markets : List UnifiedMarket) (minVolume : ℚ) : List UnifiedMarket :=
  markets.filter (fun m => decide (minVolume ≤ m.volume))

/-- `betfair-client.ts` `BetfairPriceSize`. -/
structure BetfairPriceSize where
  price : ℚ
  size : ℚ
deriving DecidableEq, Repr

/-- `betfair-client.ts` `BetfairRunner` (catalogue side). -/
structure BetfairRunner where
  selectionId : ℤ
  runnerName : String
deriving DecidableEq, Repr

/-- `betfair-client.ts` `BetfairRunnerBook`. The optional chain
`runner.ex?.availableToBack` is flattened into a possibly-empty list, so
`runner.ex?.availableToBack?.[0]` becomes `availableToBack.head?`. -/
structure BetfairRunnerBook where
  selectionId : ℤ
  availableToBack : List BetfairPriceSize
  availableToLay : List BetfairPriceSize
deriving DecidableEq, Repr

/-- `betfair-client.ts` `BetfairMarketCatalogue` (embedded fields). -/
structure BetfairMarketCatalogue where
  marketId : String
  marketName : String
  eventId : Option String := none
  eventName : Option String := none
  marketStartTime : Option String := none
  totalMatched : Option ℚ := none
  runners : Option (List BetfairRunner) := none
deriving DecidableEq, Repr

/-- `betfair-client.ts` `BetfairMarketBook`. -/
structure BetfairMarketBook where
  marketId : String
  status : String
  totalMatched : ℚ
  totalAvailable : ℚ
  runners : List BetfairRunnerBook
deriving DecidableEq, Repr

/-- `normalizeMarket` constant `MIN_OFFER_SIZE` (GBP). -/
def MIN_OFFER_SIZE : ℚ := 2

/-- `normalizeMarket` constant `MIN_LAY_PERCENT` (%). -/
def MIN_LAY_PERCENT : ℚ := 2

/-- `const backEntry = runner.ex?.availableToBack?.[0]`. -/
def backEntryOf (r : BetfairRunnerBook) : Option BetfairPriceSize :=
  r.availableToBack.head?

/-- `const layEntry = runner.ex?.availableToLay?.[0]`. -/
def layEntryOf (r : BetfairRunnerBook) : Option BetfairPriceSize :=
  r.availableToLay.head?

/-- `const backPrice = (backEntry && backEntry.size >= MIN_OFFER_SIZE) ?
backEntry.price : undefined`. -/
def backPriceOf (r : BetfairRunnerBook) : Option ℚ :=
  match backEntryOf r with
  | some e => if MIN_OFFER_SIZE ≤ e.size then some e.price else none
  | none => none

/-- `const rawLayPrice = (layEntry && layEntry.size >= MIN_OFFER_SIZE) ?
layEntry.price : undefined`. -/
def rawLayPriceOf (r : BetfairRunnerBook) : Option ℚ :=
  match layEntryOf r with
  | some e => if MIN_OFFER_SIZE ≤ e.size then some e.price else none
  | none => none

/-- `const layPrice = (rawLayPrice && betfairOddsToPercent(rawLayPrice) >=
MIN_LAY_PERCENT) ? rawLayPrice : undefined` (note the JS truthiness test on
`rawLayPrice`: a literal `0` price is treated as absent). -/
def layPriceOf (r : BetfairRunnerBook) : Option ℚ :=
  match rawLayPriceOf r with
  | some p => if p ≠ 0 ∧ MIN_LAY_PERCENT ≤ betfairOddsToPercent p then some p else none
  | none => none

/-- `const backSize = backEntry?.size`. -/
def backSizeOf (r : BetfairRunnerBook) : Option ℚ :=
  (backEntryOf r).map (fun e => e.size)

/-- `const laySize = layEntry?.size`. -/
def laySizeOf (r : BetfairRunnerBook) : Option ℚ :=
  (layEntryOf r).map (fun e => e.size)

/-- `const thinLiquidity = !!(backSize !== undefined && backSize <
MIN_OFFER_SIZE && !laySize)` (note `!laySize` is JS truthiness: it also holds
for a lay entry of size `0`). -/
def thinLiquidityFlag (r : BetfairRunnerBook) : Bool :=
  match backSizeOf r with
  | some s => decide (s < MIN_OFFER_SIZE) && !(truthyNum (laySizeOf r))
  | none => false

/-- `if (backPrice) backOdds = betfairOddsToPercent(backPrice)` (JS truthiness:
a surviving back price of literal `0` yields no `backOdds`). -/
def backOddsOf (r : BetfairRunnerBook) : Option ℚ :=
  match backPriceOf r with
  | some p => if p ≠ 0 then some (betfairOddsToPercent p) else none
  | none => none

/-- `if (layPrice) layOdds = betfairOddsToPercent(layPrice)`. -/
def layOddsOf (r : BetfairRunnerBook) : Option ℚ :=
  match layPriceOf r with
  | some p => if p ≠ 0 then some (betfairOddsToPercent p) else none
  | none => none

/-- `const backOnly = backOdds !== undefined && layOdds === undefined`. -/
def backOnlyFlag (r : BetfairRunnerBook) : Bool :=
  (backOddsOf r).isSome && (layOddsOf r).isNone

/-- The runner's `odds`: midpoint of implied probabilities when both sides
survive, `0` otherwise. -/
def runnerOddsOf (r : BetfairRunnerBook) : ℚ :=
  match backOddsOf r, layOddsOf r with
  | some b, some l => round2 ((b + l) / 2)
  | _, _ => 0

/-- The runner's `spread`: absolute difference of implied probabilities when
both sides survive, absent otherwise. -/
def runnerSpreadOf (r : BetfairRunnerBook) : Option ℚ :=
  match backOddsOf r, layOddsOf r with
  | some b, some l => some (round2 |b - l|)
  | _, _ => none

/-- `catalogue.runners?.find(r => r.selectionId === runner.selectionId)`
feeding the outcome's name. -/
def resolveRunnerName (catRunners : List BetfairRunner) (r : BetfairRunnerBook) : String :=
  match catRunners.find? (fun cr => cr.selectionId == r.selectionId) with
  | some info => info.runnerName
  | none => "Selection " ++ toString r.selectionId

/-- The per-runner body of the `for (const runner of book.runners)` loop of
`normalizeMarket`: one pushed `Outcome`. -/
def normalizeRunner (catRunners : List BetfairRunner) (r : BetfairRunnerBook) : Outcome :=
  { name := resolveRunnerName catRunners r
    odds := runnerOddsOf r
    backOdds := backOddsOf r
    layOdds := layOddsOf r
    spread := runnerSpreadOf r
    backSize := backSizeOf r
    laySize := laySizeOf r
    thinLiquidity := some (thinLiquidityFlag r)
    backOnly := some (backOnlyFlag r) }

/-- Comparator `(a, b) => b.odds - a.odds` on outcomes as a non-strict
relation. -/
def outcomeOddsDesc (a b : Outcome) : Prop := b.odds ≤ a.odds

instance : DecidableRel outcomeOddsDesc :=
  fun a b => inferInstanceAs (Decidable (b.odds ≤ a.odds))

instance : IsTotal Outcome outcomeOddsDesc :=
  ⟨fun a b => le_total b.odds a.odds⟩

instance : IsTrans Outcome outcomeOddsDesc :=
  ⟨fun _ _ _ h1 h2 => le_trans h2 h1⟩

/-- The `outcomes` value of `normalizeMarket`: present when
`book?.runners && book.runners.length > 0`, each runner normalized and the
list sorted descending by `odds` (stable sort). -/
def betfairOutcomes (catalogue : BetfairMarketCatalogue) (book : Option BetfairMarketBook) :
    Option (List Outcome) :=
  match book with
  | some bk =>
    if bk.runners.length > 0 then
      some ((bk.runners.map (normalizeRunner (catalogue.runners.getD []))).insertionSort
        outcomeOddsDesc)
    else none
  | none => none

/-- `primaryOdds = outcomes[0]?.odds || 0` (and `0` when no outcomes). -/
def betfairPrimaryOdds (catalogue : BetfairMarketCatalogue) (book : Option BetfairMarketBook) : ℚ :=
  match betfairOutcomes catalogue book with
  | some outs => jsOptOrNum (outs.head?.map (fun o => o.odds)) 0
  | none => 0

/-- The status mapping of `normalizeMarket`. -/
def betfairStatusOf (book : Option BetfairMarketBook) : String :=
  match book with
  | some bk =>
    if bk.status = "OPEN" then "open"
    else if bk.status = "CLOSED" then "closed"
    else if bk.status = "SUSPENDED" then "closed"
    else "unknown"
  | none => "unknown"

/-- `betfair-client.ts` `normalizeMarket`. -/
def normalizeMarket (gbpToUsdRate : ℚ) (now : String) (catalogue : BetfairMarketCatalogue)
    (book : Option BetfairMarketBook) : UnifiedMarket :=
  { platform := .betfair
    id := catalogue.marketId
    eventId := catalogue.eventId
    url := "https://www.betfair.com/exchange/plus/market/" ++ catalogue.marketId
    question :=
      if catalogue.eventName.getD "" = "" then catalogue.marketName
      else catalogue.eventName.getD "" ++ " - " ++ catalogue.marketName
    outcomes := betfairOutcomes catalogue book
    odds := betfairPrimaryOdds catalogue book
    volume :=
      gbpToUsd (jsOptOrNum (book.map (fun b => b.totalMatched)) (jsOptOrNum catalogue.totalMatched 0))
        gbpToUsdRate
    liquidity := some (gbpToUsd (jsOptOrNum (book.map (fun b => b.totalAvailable)) 0) gbpToUsdRate)
    status := betfairStatusOf book
    endDate := catalogue.marketStartTime
    lastUpdated := now }

/-- The decoded `outcomes` / `outcomePrices` pair of a Polymarket market
record. `ok names prices` is the result of the two successful decodes (a price
element is `none` when `parseFloat` gave `NaN`); `malformed` is the case where
`JSON.parse` threw and control reached the `catch` block. -/
inductive PolyOutcomeData
  | ok (names : List String) (prices : List (Option ℚ))
  | malformed
deriving DecidableEq, Repr

/-- The fields of `PolymarketSearchEvent` the normalizer reads. -/
structure PolySearchEvent where
  id : String
  slug : String
  title : String
  endDate : String
  volume : ℚ
  liquidity : ℚ
  active : Bool
  closed : Bool
deriving DecidableEq, Repr

/-- The fields of `PolymarketSearchMarket` the normalizer reads. `volumeNum`
models `parseFloat(market.volume)` (`none` = `NaN`), likewise `liquidityNum`. -/
structure PolySearchMarket where
  id : String
  question : String
  endDate : String
  volumeNum : Option ℚ
  liquidityNum : Option ℚ
  outcomeData : PolyOutcomeData
  active : Bool
  closed : Bool
  acceptingOrders : Bool
deriving DecidableEq, Repr

/-- `parseFloat(String(outcomePrices[i])) || 0`: out-of-range and `NaN`
become `0`. -/
def polyPriceAt (prices : List (Option ℚ)) (i : ℕ) : ℚ :=
  match prices.get? i with
  | some (some v) => v
  | some none => 0
  | none => 0

/-- The `outcomes` value of `normalizeMarketWithEvent`: present when both
decoded lists are non-empty; each outcome pairs a name with its converted
price. -/
def polyOutcomesOf (d : PolyOutcomeData) : Option (List Outcome) :=
  match d with
  | .ok names prices =>
    if names.length > 0 ∧ prices.length > 0 then
      some (names.mapIdx (fun i n =>
        { name := n, odds := polymarketOddsToPercent (polyPriceAt prices i) }))
    else none
  | .malformed => none

/-- `primaryOdds`: initialized `50`, set to `outcomes[0]?.odds || 50` when the
outcome lists are non-empty. -/
def polyPrimaryOdds (d : PolyOutcomeData) : ℚ :=
  match polyOutcomesOf d with
  | some outs => jsOptOrNum (outs.head?.map (fun o => o.odds)) 50
  | none => 50

/-- The Polymarket client's `normalizeMarketWithEvent`. -/
def normalizeMarketWithEvent (now : String) (market : PolySearchMarket)
    (event : PolySearchEvent) : UnifiedMarket :=
  { platform := .polymarket
    id := market.id
    eventId := some event.id
    url := "https://polymarket.com/event/" ++ event.slug
    question := jsOrStr event.title market.question
    outcomes := polyOutcomesOf market.outcomeData
    odds := polyPrimaryOdds market.outcomeData
    volume := usdcToUsd (jsOrNum event.volume (jsOptOrNum market.volumeNum 0))
    liquidity := some (usdcToUsd (jsOrNum event.liquidity (jsOptOrNum market.liquidityNum 0)))
    status :=
      if market.closed then "closed"
      else if market.active && market.acceptingOrders then "open"
      else "unknown"
    endDate := some (jsOrStr market.endDate event.endDate)
    lastUpdated := now }

/-- `aggregator.ts` `PlatformStatus`. -/
structure PlatformStatus where
  status : String
  count : Option Nat := none
  error : Option String := none
deriving DecidableEq, Repr

/-- How one platform's `search` promise settles: a market list or a captured
error message. -/
inductive SearchResult
  | ok (markets : List UnifiedMarket)
  | err (msg : String)
deriving DecidableEq, Repr

/-- The settled value of one wrapped search promise:
`{ platform, markets }` from `.then` or `{ platform, error }` from `.catch`. -/
structure SettledResult where
  platform : Platform
  markets : Option (List UnifiedMarket)
  error : Option String
deriving DecidableEq, Repr

/-- Wraps a platform's settled search into the tagged result object. -/
def settle (p : Platform) (r : SearchResult) : SettledResult :=
  match r with
  | .ok ms => ⟨p, some ms, none⟩
  | .err m => ⟨p, none, some m⟩

/-- The mutable state of `searchAll`'s result-processing loop. -/
structure AggState where
  polymarketStatus : PlatformStatus
  betfairStatus : PlatformStatus
  warnings : List String
  allMarkets : List UnifiedMarket
deriving DecidableEq, Repr

/-- `platforms[result.platform] = s`. -/
def setStatus (st : AggState) (p : Platform) (s : PlatformStatus) : AggState :=
  match p with
  | .polymarket => { st with polymarketStatus := s }
  | .betfair => { st with betfairStatus := s }

/-- One iteration of the `for (const result of results)` loop of `searchAll`.
`if (result.error)` is a JS truthiness test: an empty error message takes
neither branch (`result.markets` is also `undefined` then). -/
def processResult (st : AggState) (r : SettledResult) : AggState :=
  if truthyStr r.error then
    { setStatus st r.platform { status := "error", error := r.error } with
      warnings := st.warnings ++ [platformName r.platform ++ ": " ++ r.error.getD ""] }
  else if r.markets.isSome then
    { setStatus st r.platform
        { status := "success", count := some ((r.markets.getD []).length) } with
      allMarkets := st.allMarkets ++ r.markets.getD [] }
  else st

/-- The aggregator's environment: which clients report enabled, and how each
platform's `search` settles when invoked. -/
structure AggregatorEnv where
  polymarketEnabled : Bool
  betfairEnabled : Bool
  polymarketSearch : SearchResult
  betfairSearch : SearchResult
deriving DecidableEq, Repr

/-- `aggregator.ts` `AggregatedResult` (the `meta` object is inlined). -/
structure AggregatedResult where
  markets : List UnifiedMarket
  query : String
  timestamp : String
  polymarketStatus : PlatformStatus
  betfairStatus : PlatformStatus
  totalResults : Nat
  warnings : List String
deriving DecidableEq, Repr

/-- `BettingMarketsAggregator.searchAll`: fan out to the enabled,
filter-matching platforms, absorb per-platform failure into statuses and
warnings, then filter by `minVolume` (only when truthy), sort (default key
`volume`) and truncate (only when `maxResults` is truthy). -/
def searchAll (env : AggregatorEnv) (query : String) (options : SearchOptions)
    (now : String) : AggregatedResult :=
  let target := options.platform
  let settled : List SettledResult :=
    (if env.polymarketEnabled ∧ (target = none ∨ target = some Platform.polymarket)
      then [settle Platform.polymarket env.polymarketSearch] else []) ++
    (if env.betfairEnabled ∧ (target = none ∨ target = some Platform.betfair)
      then [settle Platform.betfair env.betfairSearch] else [])
  let st := settled.foldl processResult
    ⟨{ status := "disabled" }, { status := "disabled" }, [], []⟩
  let filtered :=
    if truthyNum options.minVolume then filterByMinVolume st.allMarkets (options.minVolume.getD 0)
    else st.allMarkets
  let sorted := sortMarkets filtered (options.sortBy.getD SortKey.volume)
  let limited :=
    match options.maxResults with
    | some n => if n ≠ 0 then sorted.take n else sorted
    | none => sorted
  { markets := limited
    query := query
    timestamp := now
    polymarketStatus := st.polymarketStatus
    betfairStatus := st.betfairStatus
    totalResults := limited.length
    warnings := st.warnings }

/-- A minimal concrete market used in concrete instances. -/
def mkMarket (id : String) (vol : ℚ) (odds : ℚ) : UnifiedMarket :=
  { platform := Platform.polymarket
    id := id
    url := "https://example.org/" ++ id
    question := id
    odds := odds
    volume := vol
    status := "open"
    lastUpdated := "t0" }

/-- A runner whose back (price 5, size 10) and lay (price 25/6, size 10)
quotes both survive all filters; implied probabilities 20 and 24. -/
def runnerBothSides : BetfairRunnerBook := ⟨1, [⟨5, 10⟩], [⟨25/6, 10⟩]⟩

/-- A runner with a zero back price of surviving size and a surviving lay. -/
def runnerZeroBack : BetfairRunnerBook := ⟨1, [⟨0, 5⟩], [⟨25/6, 10⟩]⟩

/-- A runner with a zero back price of surviving size and no lay quote. -/
def runnerZeroBackNoLay : BetfairRunnerBook := ⟨1, [⟨0, 5⟩], []⟩

/-- A runner with a surviving back quote (price 3, size 5) and no lay quote. -/
def runnerBackOnly : BetfairRunnerBook := ⟨1, [⟨3, 5⟩], []⟩

/-- A runner with an under-sized back quote (size 1) and no lay quote. -/
def runnerThin : BetfairRunnerBook := ⟨1, [⟨3, 1⟩], []⟩

/-- A runner with an under-sized back quote and a lay quote of size 0. -/
def runnerThinLayZero : BetfairRunnerBook := ⟨1, [⟨3, 1⟩], [⟨3, 0⟩]⟩

/-- A concrete Betfair catalogue with one named runner. -/
def betfairCatEx : BetfairMarketCatalogue :=
  { marketId := "1.234"
    marketName := "Winner"
    eventId := some "ev1"
    eventName := some "Event"
    marketStartTime := some "2026-01-01T00:00:00Z"
    totalMatched := some 100
    runners := some [⟨1, "Team A"⟩] }

/-- A concrete Betfair book holding the two-sided runner. -/
def betfairBookEx : BetfairMarketBook :=
  { marketId := "1.234"
    status := "OPEN"
    totalMatched := 100
    totalAvailable := 10
    runners := [runnerBothSides] }

/-- A concrete Polymarket event. -/
def polyEventEx : PolySearchEvent :=
  ⟨"e1", "slug1", "Example event", "2026-01-01", 1000, 10, true, false⟩

/-- A concrete Polymarket market: outcomes Yes/No at prices 0.22/0.78
(favourite listed second, as on a real record). -/
def polyMarketEx : PolySearchMarket :=
  ⟨"m1", "Example?", "2026-01-01", some 500, some 5,
    PolyOutcomeData.ok ["Yes", "No"] [some (22/100), some (78/100)], true, false, true⟩

/-- A concrete resolved-style Polymarket market: prices 0 and 1. -/
def polyMarketResolved : PolySearchMarket :=
  ⟨"m2", "Resolved?", "2025-01-01", some 500, some 5,
    PolyOutcomeData.ok ["Yes", "No"] [some 0, some 1], true, false, true⟩

/-- Three concrete markets, for aggregator instances. -/
def threeMarkets : List UnifiedMarket :=
  [mkMarket "a" 1 10, mkMarket "b" 2 20, mkMarket "c" 3 30]

/-- `searchAll` options with every field absent (the defaults). -/
def emptyOptions : SearchOptions := ⟨none, none, none, none⟩

/-! Helper lemmas. -/

/-- A lay price that survives the lay filters is nonzero. -/
theorem layPriceOf_ne_zero {r : BetfairRunnerBook} {p : ℚ} (h : layPriceOf r = some p) :
    p ≠ 0 := by
  unfold layPriceOf at h
  cases hraw : rawLayPriceOf r with
  | none => rw [hraw] at h; exact absurd h (by simp)
  | some q =>
    rw [hraw] at h
    dsimp only at h
    split at h
    · rename_i hc
      cases h
      exact hc.1
    · exact absurd h (by simp)

/-- A truthy surviving back price yields its implied probability. -/
theorem backOddsOf_eq {r : BetfairRunnerBook} {p : ℚ} (h : backPriceOf r = some p)
    (hp : p ≠ 0) : backOddsOf r = some (betfairOddsToPercent p) := by
  unfold backOddsOf
  rw [h]
  dsimp only
  rw [if_pos hp]

/-- A surviving lay price yields its implied probability. -/
theorem layOddsOf_eq {r : BetfairRunnerBook} {p : ℚ} (h : layPriceOf r = some p) :
    layOddsOf r = some (betfairOddsToPercent p) := by
  unfold layOddsOf
  rw [h]
  dsimp only
  rw [if_pos (layPriceOf_ne_zero h)]

/-- An absent back price yields no implied probability. -/
theorem backOddsOf_none {r : BetfairRunnerBook} (h : backPriceOf r = none) :
    backOddsOf r = none := by
  unfold backOddsOf
  rw [h]

/-- An absent lay price yields no implied probability. -/
theorem layOddsOf_none {r : BetfairRunnerBook} (h : layPriceOf r = none) :
    layOddsOf r = none := by
  unfold layOddsOf
  rw [h]

/-! C7. -/

/-- C7: `betfairOddsToPercent` yields exactly 100 for every input at most 1,
yields `100/price` rounded to 2 decimals for every input above 1, and maps
4.55 to 21.98. -/
theorem betfairOddsToPercent_spec :
    (∀ p : ℚ, p ≤ 1 → betfairOddsToPercent p = 100) ∧
    (∀ p : ℚ, 1 < p → betfairOddsToPercent p = round2 (100 / p)) ∧
    betfairOddsToPercent (455/100) = 2198/100 := by
  refine ⟨fun p hp => ?_, fun p hp => ?_, ?_⟩
  · simp [betfairOddsToPercent, hp]
  · rw [betfairOddsToPercent, if_neg (not_le.mpr hp), div_mul_eq_mul_div, one_mul]
  · norm_num [betfairOddsToPercent, round2, jsRound]

/-- Witness for C7 at inputs 1 and 2. -/
theorem betfairOddsToPercent_spec_witness :
    betfairOddsToPercent 1 = 100 ∧ betfairOddsToPercent 2 = 50 := by
  constructor
  · exact betfairOddsToPercent_spec.1 1 le_rfl
  · rw [betfairOddsToPercent_spec.2.1 2 (by norm_num)]
    norm_num [round2, jsRound]

/-! C9. -/

/-- C9 counterexample: a market with negative volume is removed by
`filterByMinVolume(list, 0)`, so the call is not the identity on every list. -/
theorem filterByMinVolume_zero_counterexample :
    filterByMinVolume [mkMarket "neg" (-1) 50] 0 = [] ∧
    filterByMinVolume [mkMarket "neg" (-1) 50] 0 ≠ [mkMarket "neg" (-1) 50] := by
  constructor
  · norm_num [filterByMinVolume, mkMarket]
  · norm_num [filterByMinVolume, mkMarket]

/-- C9 amended: `filterByMinVolume` returns exactly the sublist of markets
with `volume ≥ v` (inclusive), and with threshold 0 it returns the list
unchanged provided every volume is non-negative. -/
theorem filterByMinVolume_spec :
    (∀ (l : List UnifiedMarket) (v : ℚ),
      (filterByMinVolume l v).Sublist l ∧
      (∀ m : UnifiedMarket, m ∈ filterByMinVolume l v ↔ m ∈ l ∧ v ≤ m.volume)) ∧
    (∀ l : List UnifiedMarket, (∀ m ∈ l, 0 ≤ m.volume) → filterByMinVolume l 0 = l) := by
  refine ⟨fun l v => ⟨List.filter_sublist l, fun m => ?_⟩, fun l h => ?_⟩
  · simp [filterByMinVolume]
  · rw [filterByMinVolume, List.filter_eq_self]
    intro a ha
    exact decide_eq_true (h a ha)

/-- Witness for C9 on a concrete singleton list. -/
theorem filterByMinVolume_spec_witness :
    (mkMarket "a" 5 50 ∈ filterByMinVolume [mkMarket "a" 5 50] 3 ↔
      mkMarket "a" 5 50 ∈ [mkMarket "a" 5 50] ∧ (3:ℚ) ≤ (mkMarket "a" 5 50).volume) ∧
    filterByMinVolume [mkMarket "a" 5 50] 0 = [mkMarket "a" 5 50] := by
  constructor
  · exact ((filterByMinVolume_spec.1 [mkMarket "a" 5 50] 3).2 (mkMarket "a" 5 50))
  · refine filterByMinVolume_spec.2 [mkMarket "a" 5 50] ?_
    intro m hm
    rw [List.mem_singleton] at hm
    rw [hm]
    norm_num [mkMarket]

/-! C8. -/

/-- C8: `sortMarkets` permutes its input, sorts descending by `volume` or
`odds`, ascending by platform name, and is idempotent for every key. -/
theorem sortMarkets_spec :
    ∀ (l : List UnifiedMarket) (k : SortKey),
      (sortMarkets l k).Perm l ∧
      (k = SortKey.volume → (sortMarkets l k).Pairwise volumeDesc) ∧
      (k = SortKey.odds → (sortMarkets l k).Pairwise marketOddsDesc) ∧
      (k = SortKey.platform → (sortMarkets l k).Pairwise platformAsc) ∧
      sortMarkets (sortMarkets l k) k = sortMarkets l k := by
  intro l k
  cases k with
  | volume =>
    refine ⟨List.perm_insertionSort volumeDesc l, fun _ => ?_, fun h => absurd h (by decide),
      fun h => absurd h (by decide), ?_⟩
    · exact List.sorted_insertionSort volumeDesc l
    · exact (List.sorted_insertionSort volumeDesc l).insertionSort_eq
  | odds =>
    refine ⟨List.perm_insertionSort marketOddsDesc l, fun h => absurd h (by decide), fun _ => ?_,
      fun h => absurd h (by decide), ?_⟩
    · exact List.sorted_insertionSort marketOddsDesc l
    · exact (List.sorted_insertionSort marketOddsDesc l).insertionSort_eq
  | platform =>
    refine ⟨List.perm_insertionSort platformAsc l, fun h => absurd h (by decide),
      fun h => absurd h (by decide), fun _ => ?_, ?_⟩
    · exact List.sorted_insertionSort platformAsc l
    · exact (List.sorted_insertionSort platformAsc l).insertionSort_eq

/-- Witness for C8 on a concrete two-element list with the volume key. -/
theorem sortMarkets_spec_witness :
    (sortMarkets [mkMarket "a" 1 10, mkMarket "b" 2 20] SortKey.volume).Pairwise volumeDesc ∧
    sortMarkets (sortMarkets [mkMarket "a" 1 10, mkMarket "b" 2 20] SortKey.volume)
        SortKey.volume =
      sortMarkets [mkMarket "a" 1 10, mkMarket "b" 2 20] SortKey.volume :=
  ⟨(sortMarkets_spec [mkMarket "a" 1 10, mkMarket "b" 2 20] SortKey.volume).2.1 rfl,
    (sortMarkets_spec [mkMarket "a" 1 10, mkMarket "b" 2 20] SortKey.volume).2.2.2.2⟩

/-! C10. -/

/-- C10: a thin-liquidity outcome of the Betfair normalizer is never
back-only and carries no `backOdds`: its under-sized back quote cannot have
survived the size filter. -/
theorem thinLiquidity_not_backOnly :
    ∀ (cat : List BetfairRunner) (r : BetfairRunnerBook),
      (normalizeRunner cat r).thinLiquidity = some true →
      (normalizeRunner cat r).backOnly = some false ∧
      (normalizeRunner cat r).backOdds = none := by
  intro cat r h
  simp only [normalizeRunner, Option.some.injEq] at h
  have hs : ∃ s, backSizeOf r = some s ∧ s < MIN_OFFER_SIZE := by
    unfold thinLiquidityFlag at h
    cases hbs : backSizeOf r with
    | none => rw [hbs] at h; exact absurd h (by simp)
    | some s =>
      rw [hbs] at h
      simp only [Bool.and_eq_true, decide_eq_true_eq] at h
      exact ⟨s, rfl, h.1⟩
  obtain ⟨s, hbs, hlt⟩ := hs
  have hbp : backPriceOf r = none := by
    unfold backSizeOf at hbs
    unfold backPriceOf
    cases hbe : backEntryOf r with
    | none => rfl
    | some e =>
      rw [hbe] at hbs
      simp only [Option.map_some', Option.some.injEq] at hbs
      dsimp only
      rw [if_neg (not_le.mpr (hbs ▸ hlt))]
  have hbo : backOddsOf r = none := backOddsOf_none hbp
  constructor
  · simp only [normalizeRunner, Option.some.injEq]
    unfold backOnlyFlag
    rw [hbo]
    rfl
  · simp only [normalizeRunner]
    exact hbo

/-- Witness for C10 at the under-sized-back runner. -/
theorem thinLiquidity_not_backOnly_witness :
    (normalizeRunner [] runnerThin).backOnly = some false ∧
    (normalizeRunner [] runnerThin).backOdds = none :=
  thinLiquidity_not_backOnly [] runnerThin
    (by norm_num [normalizeRunner, thinLiquidityFlag, backSizeOf, laySizeOf, backEntryOf,
      layEntryOf, truthyNum, runnerThin, MIN_OFFER_SIZE])

/-! C3. -/

/-- C3 counterexample: a back quote with price 0 and size 5 survives the size
filter (`backPriceOf` is `some 0`) and the lay quote survives all filters, yet
the outcome's odds are 0 rather than the midpoint of the two implied
probabilities, and no spread is set: the JS truthiness test `if (backPrice)`
drops a zero back price after it survived. -/
theorem betfair_midpoint_counterexample :
    backPriceOf runnerZeroBack = some 0 ∧
    layPriceOf runnerZeroBack = some (25/6) ∧
    (normalizeRunner [] runnerZeroBack).odds = 0 ∧
    (normalizeRunner [] runnerZeroBack).odds ≠
      round2 ((betfairOddsToPercent 0 + betfairOddsToPercent (25/6)) / 2) ∧
    (normalizeRunner [] runnerZeroBack).spread = none := by
  norm_num [normalizeRunner, runnerZeroBack, backPriceOf, layPriceOf, rawLayPriceOf,
    backEntryOf, layEntryOf, backOddsOf, layOddsOf, runnerOddsOf, runnerSpreadOf,
    MIN_OFFER_SIZE, MIN_LAY_PERCENT, betfairOddsToPercent, round2, jsRound]

/-- C3 amended: when both quotes survive filtering and the back price is
nonzero, the outcome's odds is the midpoint of the back- and lay-implied
probabilities rounded to 2 decimals, its spread their absolute difference
rounded to 2 decimals, and it is not back-only. -/
theorem betfair_midpoint_spec :
    ∀ (cat : List BetfairRunner) (r : BetfairRunnerBook) (bp lp : ℚ),
      backPriceOf r = some bp → bp ≠ 0 → layPriceOf r = some lp →
      (normalizeRunner cat r).odds =
        round2 ((betfairOddsToPercent bp + betfairOddsToPercent lp) / 2) ∧
      (normalizeRunner cat r).spread =
        some (round2 |betfairOddsToPercent bp - betfairOddsToPercent lp|) ∧
      (normalizeRunner cat r).backOnly = some false := by
  intro cat r bp lp hb hbp hl
  have hB := backOddsOf_eq hb hbp
  have hL := layOddsOf_eq hl
  refine ⟨?_, ?_, ?_⟩
  · simp only [normalizeRunner]
    unfold runnerOddsOf
    rw [hB, hL]
  · simp only [normalizeRunner]
    unfold runnerSpreadOf
    rw [hB, hL]
  · simp only [normalizeRunner, Option.some.injEq]
    unfold backOnlyFlag
    rw [hB, hL]
    rfl

/-- Witness for C3 at implied probabilities 20 and 24: odds 22, spread 4. -/
theorem betfair_midpoint_spec_witness :
    (normalizeRunner [] runnerBothSides).odds = 22 ∧
    (normalizeRunner [] runnerBothSides).spread = some 4 ∧
    (normalizeRunner [] runnerBothSides).backOnly = some false := by
  have h := betfair_midpoint_spec [] runnerBothSides 5 (25/6)
    (by norm_num [backPriceOf, backEntryOf, runnerBothSides, MIN_OFFER_SIZE])
    (by norm_num)
    (by norm_num [layPriceOf, rawLayPriceOf, layEntryOf, runnerBothSides, MIN_OFFER_SIZE,
      MIN_LAY_PERCENT, betfairOddsToPercent, round2, jsRound])
  refine ⟨?_, ?_, h.2.2⟩
  · rw [h.1]
    norm_num [betfairOddsToPercent, round2, jsRound]
  · rw [h.2.1]
    norm_num [betfairOddsToPercent, round2, jsRound]

/-! C4. -/

/-- C4 counterexample: with a present back price of 0 (size 5) and no lay
quote at all, the outcome is not marked back-only: the JS truthiness test
yields no backOdds for a zero price, so `backOnly` stays false. -/
theorem backOnly_counterexample :
    backPriceOf runnerZeroBackNoLay = some 0 ∧
    layPriceOf runnerZeroBackNoLay = none ∧
    (normalizeRunner [] runnerZeroBackNoLay).backOnly = some false ∧
    (normalizeRunner [] runnerZeroBackNoLay).backOnly ≠ some true := by
  norm_num [normalizeRunner, runnerZeroBackNoLay, backPriceOf, layPriceOf, rawLayPriceOf,
    backEntryOf, layEntryOf, backOddsOf, layOddsOf, backOnlyFlag, MIN_OFFER_SIZE]

/-- C4 amended: a back-only outcome has odds 0 and no layOdds; and whenever a
nonzero back price survives filtering and no lay price survives, the outcome
is marked back-only with odds 0. -/
theorem backOnly_spec :
    (∀ (cat : List BetfairRunner) (r : BetfairRunnerBook),
      (normalizeRunner cat r).backOnly = some true →
      (normalizeRunner cat r).odds = 0 ∧ (normalizeRunner cat r).layOdds = none) ∧
    (∀ (cat : List BetfairRunner) (r : BetfairRunnerBook) (bp : ℚ),
      backPriceOf r = some bp → bp ≠ 0 → layPriceOf r = none →
      (normalizeRunner cat r).backOnly = some true ∧ (normalizeRunner cat r).odds = 0) := by
  constructor
  · intro cat r h
    simp only [normalizeRunner, Option.some.injEq] at h
    unfold backOnlyFlag at h
    simp only [Bool.and_eq_true, Option.isSome_iff_exists, Option.isNone_iff_eq_none] at h
    have hL : layOddsOf r = none := h.2
    constructor
    · simp only [normalizeRunner]
      unfold runnerOddsOf
      rw [hL]
      cases backOddsOf r with
      | none => rfl
      | some b => rfl
    · simp only [normalizeRunner]
      exact hL
  · intro cat r bp hb hbp hl
    have hB := backOddsOf_eq hb hbp
    have hL := layOddsOf_none hl
    constructor
    · simp only [normalizeRunner, Option.some.injEq]
      unfold backOnlyFlag
      rw [hB, hL]
      rfl
    · simp only [normalizeRunner]
      unfold runnerOddsOf
      rw [hB, hL]

/-- Witness for C4 at the surviving back-only runner (price 3, size 5). -/
theorem backOnly_spec_witness :
    (normalizeRunner [] runnerBackOnly).backOnly = some true ∧
    (normalizeRunner [] runnerBackOnly).odds = 0 ∧
    (normalizeRunner [] runnerBackOnly).layOdds = none := by
  have h2 := backOnly_spec.2 [] runnerBackOnly 3
    (by norm_num [backPriceOf, backEntryOf, runnerBackOnly, MIN_OFFER_SIZE])
    (by norm_num)
    (by norm_num [layPriceOf, rawLayPriceOf, layEntryOf, runnerBackOnly])
  have h1 := backOnly_spec.1 [] runnerBackOnly h2.1
  exact ⟨h2.1, h2.2, h1.2⟩

/-! C5. -/

/-- C5 counterexample: a lay quote exists (price 3, size 0) alongside an
under-sized back quote, yet thinLiquidity still fires: the JS test `!laySize`
treats a size-0 lay quote as absent. -/
theorem thinLiquidity_counterexample :
    layEntryOf runnerThinLayZero = some ⟨3, 0⟩ ∧
    layEntryOf runnerThinLayZero ≠ none ∧
    (normalizeRunner [] runnerThinLayZero).thinLiquidity = some true := by
  refine ⟨?_, ?_, ?_⟩
  · simp [layEntryOf, runnerThinLayZero]
  · simp [layEntryOf, runnerThinLayZero]
  · norm_num [normalizeRunner, runnerThinLayZero, thinLiquidityFlag, backSizeOf, laySizeOf,
      backEntryOf, layEntryOf, truthyNum, MIN_OFFER_SIZE]

/-- C5 amended: thinLiquidity fires exactly when a back quote exists with size
below the offer threshold and every lay quote present has size 0 (no lay
quote at all, or one of size 0, which JS truthiness treats as absent); in
particular it never fires when no back quote exists (e.g. for an under-sized
lay quote alone). -/
theorem thinLiquidity_spec :
    ∀ (cat : List BetfairRunner) (r : BetfairRunnerBook),
      ((normalizeRunner cat r).thinLiquidity = some true ↔
        (∃ e, backEntryOf r = some e ∧ e.size < MIN_OFFER_SIZE) ∧
        (∀ e, layEntryOf r = some e → e.size = 0)) ∧
      (backEntryOf r = none → (normalizeRunner cat r).thinLiquidity = some false) := by
  intro cat r
  constructor
  · simp only [normalizeRunner, Option.some.injEq]
    cases hbe : backEntryOf r with
    | none => simp [thinLiquidityFlag, backSizeOf, hbe]
    | some e =>
      cases hle : layEntryOf r with
      | none => simp [thinLiquidityFlag, backSizeOf, laySizeOf, truthyNum, hbe, hle]
      | some f => simp [thinLiquidityFlag, backSizeOf, laySizeOf, truthyNum, hbe, hle, not_not]
  · intro hbe
    simp only [normalizeRunner, Option.some.injEq]
    simp [thinLiquidityFlag, backSizeOf, hbe]

/-- Witness for C5: an under-sized back quote with no lay quote fires the
thin-liquidity flag. -/
theorem thinLiquidity_spec_witness :
    (normalizeRunner [] runnerThin).thinLiquidity = some true :=
  (thinLiquidity_spec [] runnerThin).1.mpr
    ⟨⟨⟨3, 1⟩, by simp [backEntryOf, runnerThin], by norm_num [MIN_OFFER_SIZE]⟩,
      fun e h => by simp [layEntryOf, runnerThin] at h⟩

/-! Helper lemmas for the market-level odds claims. -/

/-- The scalar odds of a Polymarket record with non-empty decoded lists is
`outcomes[0]?.odds || 50`. -/
theorem polyPrimaryOdds_ok (names : List String) (prices : List (Option ℚ))
    (hn : names ≠ []) (hp : prices ≠ []) :
    polyPrimaryOdds (PolyOutcomeData.ok names prices) =
      jsOrNum (polymarketOddsToPercent (polyPriceAt prices 0)) 50 := by
  cases names with
  | nil => exact absurd rfl hn
  | cons n ns =>
    have hp' : 0 < prices.length := List.length_pos.mpr hp
    simp [polyPrimaryOdds, polyOutcomesOf, hp', List.mapIdx_cons, jsOptOrNum]

/-- `outcomes[0]?.odds || 0` on a non-empty list is the head's odds. -/
theorem jsOptOrNum_head_zero (h : Outcome) (t : List Outcome) :
    jsOptOrNum (((h :: t).head?).map (fun o => o.odds)) 0 = h.odds := by
  by_cases hz : h.odds = 0
  · simp [jsOptOrNum, jsOrNum, hz]
  · simp [jsOptOrNum, jsOrNum, hz]

/-- In a list sorted descending by odds, the head's odds bound every
element's. -/
theorem sorted_head_odds_max {h : Outcome} {t : List Outcome}
    (hs : (h :: t).Pairwise outcomeOddsDesc) :
    ∀ o ∈ h :: t, o.odds ≤ h.odds := by
  intro o ho
  rcases List.mem_cons.mp ho with rfl | ht
  · exact le_rfl
  · exact (List.pairwise_cons.mp hs).1 o ht

/-! C1. -/

/-- C1 counterexample: a Polymarket market with outcomes Yes/No at prices
0.22/0.78 produces outcome odds [22, 78]; the market's scalar odds is 22 (the
first outcome's), not the maximum 78, and the outcome list is not sorted
descending by odds. -/
theorem unified_odds_counterexample :
    ((normalizeMarketWithEvent "t0" polyMarketEx polyEventEx).outcomes.getD []).map
        (fun o => o.odds) = [22, 78] ∧
    (normalizeMarketWithEvent "t0" polyMarketEx polyEventEx).odds = 22 ∧
    ¬ (∀ o ∈ (normalizeMarketWithEvent "t0" polyMarketEx polyEventEx).outcomes.getD [],
        o.odds ≤ (normalizeMarketWithEvent "t0" polyMarketEx polyEventEx).odds) ∧
    ¬ ((normalizeMarketWithEvent "t0" polyMarketEx polyEventEx).outcomes.getD []).Pairwise
        outcomeOddsDesc := by
  have houts : (normalizeMarketWithEvent "t0" polyMarketEx polyEventEx).outcomes =
      some [⟨"Yes", 22, none, none, none, none, none, none, none⟩,
        ⟨"No", 78, none, none, none, none, none, none, none⟩] := by
    norm_num [normalizeMarketWithEvent, polyMarketEx, polyOutcomesOf, polyPriceAt,
      polymarketOddsToPercent, round2, jsRound, List.mapIdx_cons]
  have hodds : (normalizeMarketWithEvent "t0" polyMarketEx polyEventEx).odds = 22 := by
    norm_num [normalizeMarketWithEvent, polyMarketEx, polyPrimaryOdds, polyOutcomesOf,
      polyPriceAt, polymarketOddsToPercent, round2, jsRound, jsOptOrNum, jsOrNum,
      List.mapIdx_cons]
  refine ⟨?_, hodds, ?_, ?_⟩
  · rw [houts]
    norm_num
  · rw [houts, hodds]
    intro hall
    have h78 := hall ⟨"No", 78, none, none, none, none, none, none, none⟩ (by norm_num)
    norm_num at h78
  · rw [houts]
    intro hp
    have h78 := (List.pairwise_cons.mp hp).1
      ⟨"No", 78, none, none, none, none, none, none, none⟩ (by norm_num)
    norm_num [outcomeOddsDesc] at h78

/-- C1 amended: for Betfair's normalizeMarket a present non-empty outcome list
is sorted descending by odds and the market's scalar odds is the maximum
outcome odds (the favourite); Polymarket's normalizeMarketWithEvent instead
keeps outcomes in record order and takes the first outcome's converted price
(or 50 when that is 0) as the scalar odds. -/
theorem unified_odds_invariant :
    (∀ (rate : ℚ) (now : String) (cat : BetfairMarketCatalogue)
        (book : Option BetfairMarketBook) (outs : List Outcome),
      (normalizeMarket rate now cat book).outcomes = some outs → outs ≠ [] →
      outs.Pairwise outcomeOddsDesc ∧
      ∃ o ∈ outs, (normalizeMarket rate now cat book).odds = o.odds ∧
        ∀ o2 ∈ outs, o2.odds ≤ o.odds) ∧
    (∀ (now : String) (mk : PolySearchMarket) (ev : PolySearchEvent)
        (names : List String) (prices : List (Option ℚ)),
      mk.outcomeData = PolyOutcomeData.ok names prices → names ≠ [] → prices ≠ [] →
      (normalizeMarketWithEvent now mk ev).outcomes =
        some (names.mapIdx (fun i n =>
          { name := n, odds := polymarketOddsToPercent (polyPriceAt prices i) })) ∧
      (normalizeMarketWithEvent now mk ev).odds =
        jsOrNum (polymarketOddsToPercent (polyPriceAt prices 0)) 50) := by
  constructor
  · intro rate now cat book outs houts hne
    simp only [normalizeMarket] at houts ⊢
    cases book with
    | none => exact absurd houts (by simp [betfairOutcomes])
    | some bk =>
      unfold betfairOutcomes at houts
      dsimp only at houts
      by_cases hlen : bk.runners.length > 0
      · rw [if_pos hlen] at houts
        simp only [Option.some.injEq] at houts
        subst houts
        have hsorted := List.sorted_insertionSort outcomeOddsDesc
          (bk.runners.map (normalizeRunner (cat.runners.getD [])))
        refine ⟨hsorted, ?_⟩
        have hodds : betfairPrimaryOdds cat (some bk) =
            jsOptOrNum
              (((bk.runners.map (normalizeRunner (cat.runners.getD []))).insertionSort
                outcomeOddsDesc).head?.map (fun o => o.odds)) 0 := by
          simp [betfairPrimaryOdds, betfairOutcomes, hlen]
        cases hcons : (bk.runners.map (normalizeRunner (cat.runners.getD []))).insertionSort
            outcomeOddsDesc with
        | nil => exact absurd hcons hne
        | cons h t =>
          refine ⟨h, List.mem_cons_self h t, ?_, ?_⟩
          · rw [hodds, hcons]
            exact jsOptOrNum_head_zero h t
          · exact sorted_head_odds_max (hcons ▸ hsorted)
      · rw [if_neg hlen] at houts
        exact absurd houts (by simp)
  · intro now mk ev names prices hd hn hp
    constructor
    · simp only [normalizeMarketWithEvent]
      rw [hd]
      unfold polyOutcomesOf
      dsimp only
      rw [if_pos ⟨List.length_pos.mpr hn, List.length_pos.mpr hp⟩]
    · simp only [normalizeMarketWithEvent]
      rw [hd]
      exact polyPrimaryOdds_ok names prices hn hp

/-- Witness for C1: a one-runner Betfair market and the concrete Polymarket
record. -/
theorem unified_odds_invariant_witness :
    ((normalizeMarket (127/100) "t0" betfairCatEx (some betfairBookEx)).outcomes =
        some [normalizeRunner [⟨1, "Team A"⟩] runnerBothSides] ∧
      [normalizeRunner [⟨1, "Team A"⟩] runnerBothSides].Pairwise outcomeOddsDesc ∧
      ∃ o ∈ [normalizeRunner [⟨1, "Team A"⟩] runnerBothSides],
        (normalizeMarket (127/100) "t0" betfairCatEx (some betfairBookEx)).odds = o.odds ∧
        ∀ o2 ∈ [normalizeRunner [⟨1, "Team A"⟩] runnerBothSides], o2.odds ≤ o.odds) ∧
    (normalizeMarketWithEvent "t0" polyMarketEx polyEventEx).odds =
      jsOrNum (polymarketOddsToPercent (polyPriceAt [some (22/100), some (78/100)] 0)) 50 := by
  have houts : (normalizeMarket (127/100) "t0" betfairCatEx (some betfairBookEx)).outcomes =
      some [normalizeRunner [⟨1, "Team A"⟩] runnerBothSides] := by
    simp [normalizeMarket, betfairOutcomes, betfairCatEx, betfairBookEx,
      List.insertionSort, List.orderedInsert]
  have hbet := unified_odds_invariant.1 (127/100) "t0" betfairCatEx (some betfairBookEx)
    [normalizeRunner [⟨1, "Team A"⟩] runnerBothSides] houts (by simp)
  have hpoly := unified_odds_invariant.2 "t0" polyMarketEx polyEventEx ["Yes", "No"]
    [some (22/100), some (78/100)] rfl (List.cons_ne_nil _ _) (List.cons_ne_nil _ _)
  exact ⟨⟨houts, hbet.1, hbet.2⟩, hpoly.2⟩

/-! C6. -/

/-- C6 counterexample: a fully parseable record whose first outcome price is 0
(a resolved market) gets scalar odds 50, not the first outcome's converted
price 0: `outcomes[0]?.odds || 50` treats a 0 price as missing. -/
theorem poly_primary_odds_counterexample :
    polymarketOddsToPercent 0 = 0 ∧
    (normalizeMarketWithEvent "t0" polyMarketResolved polyEventEx).odds = 50 ∧
    (normalizeMarketWithEvent "t0" polyMarketResolved polyEventEx).odds ≠
      polymarketOddsToPercent 0 := by
  refine ⟨?_, ?_, ?_⟩
  · norm_num [polymarketOddsToPercent, round2, jsRound]
  · norm_num [normalizeMarketWithEvent, polyMarketResolved, polyPrimaryOdds, polyOutcomesOf,
      polyPriceAt, polymarketOddsToPercent, round2, jsRound, jsOptOrNum, jsOrNum,
      List.mapIdx_cons]
  · norm_num [normalizeMarketWithEvent, polyMarketResolved, polyPrimaryOdds, polyOutcomesOf,
      polyPriceAt, polymarketOddsToPercent, round2, jsRound, jsOptOrNum, jsOrNum,
      List.mapIdx_cons]

/-- C6 amended: for a parseable record with non-empty outcome and price lists
the scalar odds is the first outcome's converted price when that is nonzero
and 50 when it is zero; for malformed or absent outcome/price data the scalar
odds defaults to 50 and the record still normalizes. -/
theorem poly_primary_odds_spec :
    (∀ (now : String) (mk : PolySearchMarket) (ev : PolySearchEvent)
        (names : List String) (prices : List (Option ℚ)),
      mk.outcomeData = PolyOutcomeData.ok names prices → names ≠ [] → prices ≠ [] →
      (normalizeMarketWithEvent now mk ev).odds =
        jsOrNum (polymarketOddsToPercent (polyPriceAt prices 0)) 50) ∧
    (∀ (now : String) (mk : PolySearchMarket) (ev : PolySearchEvent),
      mk.outcomeData = PolyOutcomeData.malformed →
      (normalizeMarketWithEvent now mk ev).odds = 50) ∧
    (∀ (now : String) (mk : PolySearchMarket) (ev : PolySearchEvent)
        (prices : List (Option ℚ)),
      mk.outcomeData = PolyOutcomeData.ok [] prices →
      (normalizeMarketWithEvent now mk ev).odds = 50) ∧
    (∀ (now : String) (mk : PolySearchMarket) (ev : PolySearchEvent)
        (names : List String),
      mk.outcomeData = PolyOutcomeData.ok names [] →
      (normalizeMarketWithEvent now mk ev).odds = 50) := by
  refine ⟨fun now mk ev names prices hd hn hp => ?_, fun now mk ev hd => ?_,
    fun now mk ev prices hd => ?_, fun now mk ev names hd => ?_⟩
  · simp only [normalizeMarketWithEvent]
    rw [hd]
    exact polyPrimaryOdds_ok names prices hn hp
  · simp only [normalizeMarketWithEvent]
    rw [hd]
    rfl
  · simp only [normalizeMarketWithEvent]
    rw [hd]
    simp [polyPrimaryOdds, polyOutcomesOf]
  · simp only [normalizeMarketWithEvent]
    rw [hd]
    simp [polyPrimaryOdds, polyOutcomesOf]

/-- Witness for C6 at Yes/No prices 0.22/0.78: scalar odds 22. -/
theorem poly_primary_odds_spec_witness :
    (normalizeMarketWithEvent "t0" polyMarketEx polyEventEx).odds = 22 := by
  rw [poly_primary_odds_spec.1 "t0" polyMarketEx polyEventEx ["Yes", "No"]
    [some (22/100), some (78/100)] rfl (List.cons_ne_nil _ _) (List.cons_ne_nil _ _)]
  norm_num [polyPriceAt, polymarketOddsToPercent, round2, jsRound, jsOrNum]

/-! C2. -/

/-- C2 counterexample: when the failing platform's captured error message is
the empty string, `if (result.error)` is falsy and `result.markets` is also
absent, so the queried-and-failed platform silently keeps status "disabled"
and no warning is emitted, against the claimed error status and single
warning. -/
theorem searchAll_partial_failure_counterexample :
    (searchAll ⟨true, true, SearchResult.ok threeMarkets, SearchResult.err ""⟩ "q"
        emptyOptions "t0").betfairStatus = { status := "disabled" } ∧
    (searchAll ⟨true, true, SearchResult.ok threeMarkets, SearchResult.err ""⟩ "q"
        emptyOptions "t0").warnings = [] ∧
    (searchAll ⟨true, true, SearchResult.ok threeMarkets, SearchResult.err ""⟩ "q"
        emptyOptions "t0").markets.length = 3 ∧
    ¬ ((searchAll ⟨true, true, SearchResult.ok threeMarkets, SearchResult.err ""⟩ "q"
          emptyOptions "t0").betfairStatus.status = "error" ∧
        (searchAll ⟨true, true, SearchResult.ok threeMarkets, SearchResult.err ""⟩ "q"
          emptyOptions "t0").warnings.length = 1) := by
  refine ⟨?_, ?_, ?_, ?_⟩
  · simp [searchAll, settle, processResult, setStatus, truthyStr, truthyNum, emptyOptions]
  · simp [searchAll, settle, processResult, setStatus, truthyStr, truthyNum, emptyOptions]
  · norm_num [searchAll, settle, processResult, setStatus, truthyStr, truthyNum, emptyOptions,
      sortMarkets, threeMarkets, List.insertionSort, List.orderedInsert, volumeDesc, mkMarket]
  · simp [searchAll, settle, processResult, setStatus, truthyStr, truthyNum, emptyOptions]

/-- C2 amended: with default options and a nonempty captured error message,
aggregation with one platform resolving with 3 markets and the other raising
yields 3 markets, status error-with-message for the failing platform, exactly
the one warning of the form platform-name colon message, and a success status
of count 3 for the other platform (in both directions); `searchAll` is a
total function of its inputs, so it never raises. -/
theorem searchAll_partial_failure :
    ∀ (q now msg : String) (ms : List UnifiedMarket), ms.length = 3 → msg ≠ "" →
      ((searchAll ⟨true, true, SearchResult.ok ms, SearchResult.err msg⟩ q emptyOptions
          now).markets.length = 3 ∧
        (searchAll ⟨true, true, SearchResult.ok ms, SearchResult.err msg⟩ q emptyOptions
          now).betfairStatus = { status := "error", error := some msg } ∧
        (searchAll ⟨true, true, SearchResult.ok ms, SearchResult.err msg⟩ q emptyOptions
          now).warnings = ["betfair: " ++ msg] ∧
        (searchAll ⟨true, true, SearchResult.ok ms, SearchResult.err msg⟩ q emptyOptions
          now).polymarketStatus = { status := "success", count := some 3 }) ∧
      ((searchAll ⟨true, true, SearchResult.err msg, SearchResult.ok ms⟩ q emptyOptions
          now).markets.length = 3 ∧
        (searchAll ⟨true, true, SearchResult.err msg, SearchResult.ok ms⟩ q emptyOptions
          now).polymarketStatus = { status := "error", error := some msg } ∧
        (searchAll ⟨true, true, SearchResult.err msg, SearchResult.ok ms⟩ q emptyOptions
          now).warnings = ["polymarket: " ++ msg] ∧
        (searchAll ⟨true, true, SearchResult.err msg, SearchResult.ok ms⟩ q emptyOptions
          now).betfairStatus = { status := "success", count := some 3 }) := by
  intro q now msg ms h3 hmsg
  refine ⟨⟨?_, ?_, ?_, ?_⟩, ⟨?_, ?_, ?_, ?_⟩⟩
  all_goals
    simp [searchAll, settle, processResult, setStatus, truthyStr, truthyNum, emptyOptions,
      platformName, sortMarkets, filterByMinVolume, List.length_insertionSort, h3, hmsg]

/-- Witness for C2 at three concrete markets and the message "boom". -/
theorem searchAll_partial_failure_witness :
    (searchAll ⟨true, true, SearchResult.ok threeMarkets, SearchResult.err "boom"⟩ "greenland"
        emptyOptions "t0").markets.length = 3 ∧
    (searchAll ⟨true, true, SearchResult.ok threeMarkets, SearchResult.err "boom"⟩ "greenland"
        emptyOptions "t0").betfairStatus = { status := "error", error := some "boom" } ∧
    (searchAll ⟨true, true, SearchResult.ok threeMarkets, SearchResult.err "boom"⟩ "greenland"
        emptyOptions "t0").warnings = ["betfair: " ++ "boom"] ∧
    (searchAll ⟨true, true, SearchResult.ok threeMarkets, SearchResult.err "boom"⟩ "greenland"
        emptyOptions "t0").polymarketStatus = { status := "success", count := some 3 } :=
  (searchAll_partial_failure "greenland" "t0" "boom" threeMarkets (by simp [threeMarkets])
    (by simp)).1
